import Mathlib

/-!
Verification development for the boss-monitoring Discord bot server
(`discord-bot-server.js`).

Modelling conventions:
* A JavaScript timestamp is a number of milliseconds, modelled as `Int`.
* The JavaScript `Date` parser (`new Date(string)`) is modelled as an
  explicit parameter `parse : String → Option Int`; `none` models an
  Invalid Date (a date whose `getTime()` is `NaN`).
* A value of type `Option (Option Int)` models the result of
  `calculateRespawnTime`: `none` is JavaScript `null`, `some none` is an
  Invalid Date object, `some (some t)` is a valid date with timestamp `t`.
* JavaScript `Map` objects are modelled as association lists
  `List (String × α)` with first-match lookup; `Set` objects as `Finset String`.
* JavaScript truthiness on the optional boss fields is modelled by
  `truthyStr` (a missing or empty string is falsy) and `truthyInt`
  (a missing or zero number is falsy).
-/

namespace BossBot

/-- A boss snapshot as received by the bot: the timing fields of the payload
used by `calculateRespawnTime`, plus the subject name. -/
structure Boss where
  monster : String
  respawn_time : Option String
  time_of_death : Option String
  respawn_hours : Option Int
deriving DecidableEq

/-- JavaScript truthiness of an optional string field: absent and the empty
string are falsy. -/
def truthyStr : Option String → Bool
  | none => false
  | some s => s != ""

/-- JavaScript truthiness of an optional numeric field: absent and zero are
falsy. -/
def truthyInt : Option Int → Bool
  | none => false
  | some n => n != 0

/-- The last branch of `calculateRespawnTime` (lines 460-468): fall back to
`respawn_time` even if it is in the past, with no validity check; return
`null` when `respawn_time` is falsy. -/
def calcFallback (parse : String → Option Int) (b : Boss) : Option (Option Int) :=
  if truthyStr b.respawn_time then some (parse (b.respawn_time.getD ""))
  else none

/-- The middle branch of `calculateRespawnTime` (lines 450-458): when
`time_of_death` and `respawn_hours` are both truthy and the death time parses
validly, return death time plus hours converted to milliseconds; otherwise
fall through to `calcFallback`. -/
def calcFromDeath (parse : String → Option Int) (b : Boss) : Option (Option Int) :=
  if truthyStr b.time_of_death && truthyInt b.respawn_hours then
    match parse (b.time_of_death.getD "") with
    | some td => some (some (td + b.respawn_hours.getD 0 * 3600000))
    | none => calcFallback parse b
  else calcFallback parse b

/-- Embedding of `calculateRespawnTime` (lines 439-469). The first branch
uses `respawn_time` only when it is truthy, parses validly and is strictly
in the future relative to `now`. -/
def calculateRespawnTime (parse : String → Option Int) (now : Int) (b : Boss) :
    Option (Option Int) :=
  if truthyStr b.respawn_time then
    match parse (b.respawn_time.getD "") with
    | some t => if now < t then some (some t) else calcFromDeath parse b
    | none => calcFromDeath parse b
  else calcFromDeath parse b

/-- The positive-countdown rendering of `formatRespawnTime` (lines 487-500),
for a strictly positive millisecond delta. -/
def formatCountdownPos (diffMs : Nat) : String :=
  let s := diffMs / 1000
  let m := s / 60
  let h := m / 60
  let d := h / 24
  if 0 < d then Nat.repr d ++ "d " ++ Nat.repr (h % 24) ++ "h"
  else if 0 < h then Nat.repr h ++ "h " ++ Nat.repr (m % 60) ++ "m"
  else if 0 < m then Nat.repr m ++ "m"
  else Nat.repr s ++ "s"

/-- Embedding of `formatRespawnTime` (lines 472-501): `"Unknown"` when the
computed respawn value is `null` or an Invalid Date, `"Available Now!"` when
the delta is non-positive, and a countdown rendering otherwise. -/
def formatRespawnTime (parse : String → Option Int) (now : Int) (b : Boss) : String :=
  match calculateRespawnTime parse now b with
  | none => "Unknown"
  | some none => "Unknown"
  | some (some t) =>
    if t - now ≤ 0 then "Available Now!"
    else formatCountdownPos (t - now).toNat

/-- A participation record for one tracked notification: the two user-id
sets held in `participationData` (lines 203-206). -/
structure PRecord where
  participating : Finset String
  notParticipating : Finset String
deriving DecidableEq

/-- The record a notification starts with: both sets empty. -/
def emptyRecord : PRecord := ⟨∅, ∅⟩

/-- Record-level effect of `handleReactionAdd` (lines 212-220) once the
record for the message is at hand: the positive symbol moves the user into
`participating`, the negative symbol into `notParticipating`, anything else
is ignored. -/
def applyAdd (emoji uid : String) (d : PRecord) : PRecord :=
  if emoji = "✅" then ⟨insert uid d.participating, d.notParticipating.erase uid⟩
  else if emoji = "❌" then ⟨d.participating.erase uid, insert uid d.notParticipating⟩
  else d

/-- Record-level effect of `handleReactionRemove` (lines 256-262): each
symbol only deletes the user from its own set. -/
def applyRemove (emoji uid : String) (d : PRecord) : PRecord :=
  if emoji = "✅" then ⟨d.participating.erase uid, d.notParticipating⟩
  else if emoji = "❌" then ⟨d.participating, d.notParticipating.erase uid⟩
  else d

/-- A reaction event observed by the bot: addition or removal of an emoji by
a user. -/
inductive REvent where
  | add (emoji uid : String)
  | remove (emoji uid : String)

/-- One step of the reaction reducer on a participation record. -/
def stepEvent (d : PRecord) : REvent → PRecord
  | .add emoji uid => applyAdd emoji uid d
  | .remove emoji uid => applyRemove emoji uid d

/-- First-match lookup in an association list, modelling `Map.get`. -/
def mapGet {α : Type} : List (String × α) → String → Option α
  | [], _ => none
  | e :: rest, k => if e.1 = k then some e.2 else mapGet rest k

/-- Modelling `Map.set`: replace the value at the first matching key, or
append a new entry at the end. -/
def mapSet {α : Type} : List (String × α) → String → α → List (String × α)
  | [], k, v => [(k, v)]
  | e :: rest, k, v => if e.1 = k then (k, v) :: rest else e :: mapSet rest k v

/-- Store-level embedding of `handleReactionAdd` (lines 185-229, state
effects only): unrecognised symbols are ignored; a missing record is created
with empty sets (lines 201-207) before the reaction is applied. -/
def handleReactionAdd (store : List (String × PRecord)) (mid emoji uid : String) :
    List (String × PRecord) :=
  if emoji ≠ "✅" ∧ emoji ≠ "❌" then store
  else
    let store1 := if (mapGet store mid).isSome then store else mapSet store mid emptyRecord
    match mapGet store1 mid with
    | some d => mapSet store1 mid (applyAdd emoji uid d)
    | none => store1

/-- Store-level embedding of `handleReactionRemove` (lines 232-271, state
effects only): unrecognised symbols are ignored; a missing record makes the
event a no-op (lines 248-252). -/
def handleReactionRemove (store : List (String × PRecord)) (mid emoji uid : String) :
    List (String × PRecord) :=
  if emoji ≠ "✅" ∧ emoji ≠ "❌" then store
  else
    match mapGet store mid with
    | some d => mapSet store mid (applyRemove emoji uid d)
    | none => store

/-- The staleness test of the periodic cleanup (lines 172-174): the computed
respawn time is truthy and its timestamp is strictly below `now` minus 24
hours. An Invalid Date is truthy but its `NaN` comparison is false, so it is
never stale. -/
def isStale (parse : String → Option Int) (now : Int) (b : Boss) : Bool :=
  match calculateRespawnTime parse now b with
  | some (some t) => decide (t < now - 86400000)
  | some none => false
  | none => false

/-- The eviction pass of the reconciliation tick (lines 167-179): every
stale entry is deleted from both `messageBossData` and `participationData`. -/
def evictStale (parse : String → Option Int) (now : Int)
    (mbd : List (String × Boss)) (pd : List (String × PRecord)) :
    List (String × Boss) × List (String × PRecord) :=
  (mbd.filter (fun e => !isStale parse now e.2),
   pd.filter (fun e =>
     match mapGet mbd e.1 with
     | some b => !isStale parse now b
     | none => true))

/-- Registration of a freshly posted notification (lines 674-676): both maps
are written with `Map.set`, with no duplicate check. -/
def register (pd : List (String × PRecord)) (mbd : List (String × Boss))
    (mid : String) (b : Boss) : List (String × PRecord) × List (String × Boss) :=
  (mapSet pd mid emptyRecord, mapSet mbd mid b)

/-- The participation rate of `updateParticipationEmbed` (lines 282-285) and
`createBossEmbed` (lines 533-536): `Math.round((p / total) * 100)` for a
positive total, modelled as exact rational rounding half-up via natural
division, and `0` when there are no responses. -/
def participationRate (p n : Nat) : Nat :=
  let total := p + n
  if 0 < total then (200 * p + total) / (2 * total) else 0

/-- A concrete Date parser used to instantiate the theorems on explicit
inputs: only the string `"T"` parses, to timestamp 1000. -/
def parseT : String → Option Int :=
  fun s => if s = "T" then some 1000 else none

/-- A second concrete Date parser: only `"R"` parses, to timestamp 342000
(5 minutes and 42 seconds). -/
def parseR : String → Option Int :=
  fun s => if s = "R" then some 342000 else none

/-- Claim C1 (amended): `calculateRespawnTime` follows the priority order
with JavaScript truthiness on the optional fields: (a) a truthy
`respawn_time` that parses validly and is strictly in the future is
returned; (b) otherwise, truthy `time_of_death` and truthy (nonzero)
`respawn_hours` with a validly parsing death time yield death time plus
hours in milliseconds; (c) otherwise a truthy `respawn_time` is returned as
parsed, even when the parse is invalid; (d) otherwise the result is null. -/
theorem calculateRespawnTime_priority (parse : String → Option Int) (now : Int) (b : Boss) :
    (∀ t, truthyStr b.respawn_time = true → parse (b.respawn_time.getD "") = some t →
      now < t → calculateRespawnTime parse now b = some (some t)) ∧
    (∀ td,
      (¬ ∃ t, truthyStr b.respawn_time = true ∧
        parse (b.respawn_time.getD "") = some t ∧ now < t) →
      truthyStr b.time_of_death = true → truthyInt b.respawn_hours = true →
      parse (b.time_of_death.getD "") = some td →
      calculateRespawnTime parse now b =
        some (some (td + b.respawn_hours.getD 0 * 3600000))) ∧
    ((¬ ∃ t, truthyStr b.respawn_time = true ∧
        parse (b.respawn_time.getD "") = some t ∧ now < t) →
      ¬(truthyStr b.time_of_death = true ∧ truthyInt b.respawn_hours = true ∧
        (parse (b.time_of_death.getD "")).isSome = true) →
      truthyStr b.respawn_time = true →
      calculateRespawnTime parse now b = some (parse (b.respawn_time.getD ""))) ∧
    (truthyStr b.respawn_time = false →
      ¬(truthyStr b.time_of_death = true ∧ truthyInt b.respawn_hours = true ∧
        (parse (b.time_of_death.getD "")).isSome = true) →
      calculateRespawnTime parse now b = none) := by
  have hdeath : ∀ _ : Unit,
      ¬(truthyStr b.time_of_death = true ∧ truthyInt b.respawn_hours = true ∧
        (parse (b.time_of_death.getD "")).isSome = true) →
      calcFromDeath parse b = calcFallback parse b := by
    intro _ hbc
    unfold calcFromDeath
    by_cases hd : truthyStr b.time_of_death && truthyInt b.respawn_hours
    · have hd2 : truthyStr b.time_of_death = true ∧ truthyInt b.respawn_hours = true := by
        simpa using hd
      obtain ⟨h1, h2⟩ := hd2
      cases hp : parse (b.time_of_death.getD "") with
      | some td => exact absurd ⟨h1, h2, by simp [hp]⟩ hbc
      | none => simp [hd, hp]
    · simp [hd]
  refine ⟨?_, ?_, ?_, ?_⟩
  · intro t h1 h2 h3
    simp [calculateRespawnTime, h1, h2, h3]
  · intro td hnf h1 h2 h3
    have hfd : calcFromDeath parse b = some (some (td + b.respawn_hours.getD 0 * 3600000)) := by
      simp [calcFromDeath, h1, h2, h3]
    cases hrt : truthyStr b.respawn_time with
    | false => simp [calculateRespawnTime, hrt, hfd]
    | true =>
      cases hp : parse (b.respawn_time.getD "") with
      | none => simp [calculateRespawnTime, hrt, hp, hfd]
      | some t =>
        have hnlt : ¬ now < t := fun hlt => hnf ⟨t, hrt, hp, hlt⟩
        simp [calculateRespawnTime, hrt, hp, hnlt, hfd]
  · intro hnf hbc hrt
    have hfd := hdeath () hbc
    have hfb : calcFallback parse b = some (parse (b.respawn_time.getD "")) := by
      simp [calcFallback, hrt]
    cases hp : parse (b.respawn_time.getD "") with
    | none =>
      rw [hp] at hfb
      simp [calculateRespawnTime, hrt, hp, hfd, hfb]
    | some t =>
      have hnlt : ¬ now < t := fun hlt => hnf ⟨t, hrt, hp, hlt⟩
      rw [hp] at hfb
      simp [calculateRespawnTime, hrt, hp, hnlt, hfd, hfb]
  · intro hrt hbc
    have hfd := hdeath () hbc
    simp [calculateRespawnTime, hrt, hfd, calcFallback]

/-- Witness for claim C1: each branch of the amended priority order realised
on a concrete snapshot with the concrete parser `parseT`. -/
theorem calculateRespawnTime_priority_witness :
    calculateRespawnTime parseT 0 ⟨"B", some "T", none, none⟩ = some (some 1000) ∧
    calculateRespawnTime parseT 5000 ⟨"B", none, some "T", some 2⟩ =
      some (some (1000 + (some (2 : Int)).getD 0 * 3600000)) ∧
    calculateRespawnTime parseT 5000 ⟨"B", some "T", none, none⟩ =
      some (parseT ((some "T").getD "")) ∧
    calculateRespawnTime parseT 0 ⟨"B", none, none, none⟩ = none := by
  refine ⟨?_, ?_, ?_, ?_⟩
  · exact (calculateRespawnTime_priority parseT 0 ⟨"B", some "T", none, none⟩).1
      1000 (by decide) (by decide) (by decide)
  · exact (calculateRespawnTime_priority parseT 5000 ⟨"B", none, some "T", some 2⟩).2.1
      1000 (by rintro ⟨t, ht, -, -⟩; exact absurd ht (by decide))
      (by decide) (by decide) (by decide)
  · exact (calculateRespawnTime_priority parseT 5000 ⟨"B", some "T", none, none⟩).2.2.1
      (by rintro ⟨t, -, hp, hlt⟩; simp [parseT] at hp; omega)
      (by rintro ⟨h, -⟩; exact absurd h (by decide)) (by decide)
  · exact (calculateRespawnTime_priority parseT 0 ⟨"B", none, none, none⟩).2.2.2
      (by decide) (by rintro ⟨h, -⟩; exact absurd h (by decide))

/-- Counterexample to claim C1 as stated: on a snapshot whose
`time_of_death` is present and parses validly (to 1000) and whose
`respawn_hours` is present with value 0, with no `respawn_time`, the claim
requires `time_of_death + respawn_hours` (timestamp 1000), but the code
returns null because `respawn_hours` 0 is falsy. -/
theorem calculateRespawnTime_priority_counterexample :
    (⟨"B", none, some "T", some 0⟩ : Boss).time_of_death = some "T" ∧
    (⟨"B", none, some "T", some 0⟩ : Boss).respawn_hours = some 0 ∧
    parseT "T" = some 1000 ∧
    calculateRespawnTime parseT 0 ⟨"B", none, some "T", some 0⟩ = none ∧
    calculateRespawnTime parseT 0 ⟨"B", none, some "T", some 0⟩ ≠
      some (some (1000 + 0 * 3600000)) := by
  exact ⟨rfl, rfl, by decide, by decide, by decide⟩

/-- Claim C10: falsy timing fields are treated as absent. A snapshot whose
`respawn_hours` is 0 behaves exactly as if `time_of_death` were absent (the
death branch is skipped), and a snapshot whose `respawn_time` is the empty
string behaves exactly as if `respawn_time` were absent, in both the
future-preferring branch and the fallback branch. -/
theorem calculateRespawnTime_falsy_fields (parse : String → Option Int) (now : Int) (b : Boss) :
    (b.respawn_hours = some 0 →
      calculateRespawnTime parse now b =
        calculateRespawnTime parse now { b with time_of_death := none }) ∧
    (b.respawn_time = some "" →
      calculateRespawnTime parse now b =
        calculateRespawnTime parse now { b with respawn_time := none }) := by
  constructor
  · intro h
    have hfd : calcFromDeath parse b = calcFromDeath parse { b with time_of_death := none } := by
      simp [calcFromDeath, h, truthyInt, calcFallback]
    simp only [calculateRespawnTime]
    simp only [hfd]
  · intro h
    have hrt : truthyStr b.respawn_time = false := by simp [h, truthyStr]
    have hfb : calcFallback parse b = none := by simp [calcFallback, hrt]
    have hfb2 : calcFallback parse { b with respawn_time := none } = none := by
      simp [calcFallback, truthyStr]
    have hfd : calcFromDeath parse b = calcFromDeath parse { b with respawn_time := none } := by
      unfold calcFromDeath
      simp only [hfb, hfb2]
    simp [calculateRespawnTime, h, truthyStr, hfd]

/-- Witness for claim C10: concrete snapshots with `respawn_hours` 0 and
with an empty `respawn_time`. -/
theorem calculateRespawnTime_falsy_fields_witness :
    calculateRespawnTime parseT 5000 ⟨"B", some "T", some "T", some 0⟩ =
      calculateRespawnTime parseT 5000 ⟨"B", some "T", none, some 0⟩ ∧
    calculateRespawnTime parseT 5000 ⟨"B", some "", some "T", some 2⟩ =
      calculateRespawnTime parseT 5000 ⟨"B", none, some "T", some 2⟩ := by
  exact ⟨(calculateRespawnTime_falsy_fields parseT 5000 ⟨"B", some "T", some "T", some 0⟩).1 rfl,
    (calculateRespawnTime_falsy_fields parseT 5000 ⟨"B", some "", some "T", some 2⟩).2 rfl⟩

/-- Claim C2: the reaction reducer implements the specified transition table
on a participation record — adding the positive symbol inserts the user into
`participating` and removes it from `notParticipating`; removing the
positive symbol only removes the user from `participating`; adding the
negative symbol removes the user from `participating` and inserts it into
`notParticipating`; removing the negative symbol only removes the user from
`notParticipating`; any other symbol is a no-op; and removing a reaction
that was never added is a no-op with no error. -/
theorem reaction_transition_table (d : PRecord) (u em : String) :
    (applyAdd "✅" u d).participating = insert u d.participating ∧
    (applyAdd "✅" u d).notParticipating = d.notParticipating.erase u ∧
    (applyRemove "✅" u d).participating = d.participating.erase u ∧
    (applyRemove "✅" u d).notParticipating = d.notParticipating ∧
    (applyAdd "❌" u d).participating = d.participating.erase u ∧
    (applyAdd "❌" u d).notParticipating = insert u d.notParticipating ∧
    (applyRemove "❌" u d).participating = d.participating ∧
    (applyRemove "❌" u d).notParticipating = d.notParticipating.erase u ∧
    (em ≠ "✅" → em ≠ "❌" → applyAdd em u d = d ∧ applyRemove em u d = d) ∧
    (u ∉ d.participating → applyRemove "✅" u d = d) ∧
    (u ∉ d.notParticipating → applyRemove "❌" u d = d) := by
  refine ⟨by simp [applyAdd], by simp [applyAdd], by simp [applyRemove],
    by simp [applyRemove], by simp [applyAdd], by simp [applyAdd],
    by simp [applyRemove], by simp [applyRemove], ?_, ?_, ?_⟩
  · intro h1 h2
    exact ⟨by simp [applyAdd, h1, h2], by simp [applyRemove, h1, h2]⟩
  · intro hu
    cases d with
    | mk p n => simp [applyRemove, Finset.erase_eq_of_not_mem hu]
  · intro hu
    cases d with
    | mk p n => simp [applyRemove, Finset.erase_eq_of_not_mem hu]

/-- Witness for claim C2: the hypothesis-bearing clauses of the transition
table realised on a concrete record and user. -/
theorem reaction_transition_table_witness :
    applyAdd "👍" "u" ⟨∅, ∅⟩ = (⟨∅, ∅⟩ : PRecord) ∧
    applyRemove "👍" "u" ⟨∅, ∅⟩ = (⟨∅, ∅⟩ : PRecord) ∧
    applyRemove "✅" "u" ⟨∅, ∅⟩ = (⟨∅, ∅⟩ : PRecord) ∧
    applyRemove "❌" "u" ⟨∅, ∅⟩ = (⟨∅, ∅⟩ : PRecord) := by
  refine ⟨?_, ?_, ?_, ?_⟩
  · exact ((reaction_transition_table ⟨∅, ∅⟩ "u" "👍").2.2.2.2.2.2.2.2.1
      (by decide) (by decide)).1
  · exact ((reaction_transition_table ⟨∅, ∅⟩ "u" "👍").2.2.2.2.2.2.2.2.1
      (by decide) (by decide)).2
  · exact (reaction_transition_table ⟨∅, ∅⟩ "u" "👍").2.2.2.2.2.2.2.2.2.1
      (by simp)
  · exact (reaction_transition_table ⟨∅, ∅⟩ "u" "👍").2.2.2.2.2.2.2.2.2.2
      (by simp)

/-- One reducer step preserves disjointness of the two participation sets. -/
theorem stepEvent_preserves_disjoint (d : PRecord) (e : REvent)
    (h : Disjoint d.participating d.notParticipating) :
    Disjoint (stepEvent d e).participating (stepEvent d e).notParticipating := by
  rw [Finset.disjoint_left] at h
  cases e with
  | add em u =>
    by_cases h1 : em = "✅"
    · rw [Finset.disjoint_left]
      intro a ha hb
      simp [stepEvent, applyAdd, h1] at ha hb
      rcases ha with rfl | ha
      · exact hb.1 rfl
      · exact h ha hb.2
    · by_cases h2 : em = "❌"
      · rw [Finset.disjoint_left]
        intro a ha hb
        simp [stepEvent, applyAdd, h1, h2] at ha hb
        rcases hb with rfl | hb
        · exact ha.1 rfl
        · exact h ha.2 hb
      · simpa [stepEvent, applyAdd, h1, h2] using Finset.disjoint_left.mpr h
  | remove em u =>
    by_cases h1 : em = "✅"
    · rw [Finset.disjoint_left]
      intro a ha hb
      simp [stepEvent, applyRemove, h1] at ha hb
      exact h ha.2 hb
    · by_cases h2 : em = "❌"
      · rw [Finset.disjoint_left]
        intro a ha hb
        simp [stepEvent, applyRemove, h1, h2] at ha hb
        exact h ha hb.2
      · simpa [stepEvent, applyRemove, h1, h2] using Finset.disjoint_left.mpr h

/-- Claim C3: starting from two empty sets, after any finite sequence of
add/remove reaction events (any symbols, any users) the participating and
not-participating sets are disjoint; since every intermediate state is the
final state of a prefix, the invariant holds at every point of the
sequence. -/
theorem participation_sets_disjoint (evs : List REvent) :
    Disjoint ((evs.foldl stepEvent emptyRecord).participating)
      ((evs.foldl stepEvent emptyRecord).notParticipating) := by
  suffices h : ∀ d : PRecord, Disjoint d.participating d.notParticipating →
      Disjoint ((evs.foldl stepEvent d).participating)
        ((evs.foldl stepEvent d).notParticipating) by
    exact h emptyRecord (by simp [emptyRecord])
  induction evs with
  | nil => intro d hd; exact hd
  | cons e rest ih =>
    intro d hd
    exact ih _ (stepEvent_preserves_disjoint d e hd)

/-- Looking up the key just written by `mapSet` yields the written value. -/
theorem mapGet_mapSet_self {α : Type} (s : List (String × α)) (k : String) (v : α) :
    mapGet (mapSet s k v) k = some v := by
  induction s with
  | nil => simp [mapSet, mapGet]
  | cons e rest ih =>
    by_cases h : e.1 = k
    · simp [mapSet, h, mapGet]
    · simp [mapSet, h, mapGet, ih]

/-- `mapSet` leaves lookups at other keys unchanged. -/
theorem mapGet_mapSet_ne {α : Type} (s : List (String × α)) (k k' : String) (v : α)
    (h : k ≠ k') : mapGet (mapSet s k v) k' = mapGet s k' := by
  induction s with
  | nil => simp [mapSet, mapGet, h]
  | cons e rest ih =>
    by_cases he : e.1 = k
    · subst he
      simp [mapSet, mapGet, h]
    · simp [mapSet, he, mapGet, ih]

/-- Writing the same key twice keeps only the second value. -/
theorem mapSet_mapSet {α : Type} (s : List (String × α)) (k : String) (a b : α) :
    mapSet (mapSet s k a) k b = mapSet s k b := by
  induction s with
  | nil => simp [mapSet]
  | cons e rest ih =>
    by_cases h : e.1 = k
    · simp [mapSet, h]
    · simp [mapSet, h, ih]

/-- Claim C4 (amended): a reaction removal whose notification id is not
tracked leaves the store unchanged, as does any event with an unrecognised
symbol; but a reaction addition with a recognised symbol on an untracked id
creates a fresh record with empty sets and applies the reaction to it. -/
theorem untracked_reaction_events (store : List (String × PRecord)) (mid emoji uid : String)
    (h : mapGet store mid = none) :
    handleReactionRemove store mid emoji uid = store ∧
    (¬(emoji ≠ "✅" ∧ emoji ≠ "❌") →
      handleReactionAdd store mid emoji uid =
        mapSet store mid (applyAdd emoji uid emptyRecord)) ∧
    ((emoji ≠ "✅" ∧ emoji ≠ "❌") → handleReactionAdd store mid emoji uid = store) := by
  refine ⟨?_, ?_, ?_⟩
  · unfold handleReactionRemove
    by_cases hem : emoji ≠ "✅" ∧ emoji ≠ "❌"
    · simp [hem]
    · simp [hem, h]
  · intro hem
    unfold handleReactionAdd
    simp [hem, h, mapGet_mapSet_self, mapSet_mapSet]
  · intro hem
    simp [handleReactionAdd, hem]

/-- Witness for claim C4: on the empty store, a removal is dropped and an
addition of the positive symbol creates the record. -/
theorem untracked_reaction_events_witness :
    handleReactionRemove [] "m" "✅" "u" = [] ∧
    handleReactionAdd [] "m" "✅" "u" = mapSet [] "m" (applyAdd "✅" "u" emptyRecord) ∧
    handleReactionAdd [] "m" "🎉" "u" = [] := by
  refine ⟨?_, ?_, ?_⟩
  · exact (untracked_reaction_events [] "m" "✅" "u" rfl).1
  · exact (untracked_reaction_events [] "m" "✅" "u" rfl).2.1 (by simp)
  · exact (untracked_reaction_events [] "m" "🎉" "u" rfl).2.2 (by simp)

/-- Counterexample to claim C4 as stated: an addition of the positive symbol
for an id absent from the store does not leave the store unchanged — a new
record is created and the user is inserted into it. -/
theorem untracked_reaction_counterexample :
    mapGet (handleReactionAdd [] "m" "✅" "u") "m" = some ⟨{"u"}, ∅⟩ ∧
    handleReactionAdd [] "m" "✅" "u" ≠ ([] : List (String × PRecord)) := by
  exact ⟨by decide, by decide⟩

/-- Claim C9 (amended): registration performs no duplicate check — for every
store state, registering an id (tracked or not) succeeds, setting the
participation entry to empty sets and the snapshot entry to the new
snapshot, and leaving every other key unchanged; an already tracked id is
silently overwritten. -/
theorem register_overwrites (pd : List (String × PRecord)) (mbd : List (String × Boss))
    (mid : String) (b : Boss) :
    mapGet (register pd mbd mid b).1 mid = some emptyRecord ∧
    mapGet (register pd mbd mid b).2 mid = some b ∧
    (∀ k, k ≠ mid → mapGet (register pd mbd mid b).1 k = mapGet pd k ∧
      mapGet (register pd mbd mid b).2 k = mapGet mbd k) := by
  refine ⟨mapGet_mapSet_self pd mid emptyRecord, mapGet_mapSet_self mbd mid b, ?_⟩
  intro k hk
  exact ⟨mapGet_mapSet_ne pd mid k emptyRecord (fun hh => hk hh.symm),
    mapGet_mapSet_ne mbd mid k b (fun hh => hk hh.symm)⟩

/-- Witness for claim C9: registering over an existing entry on a concrete
store, with an unrelated key preserved. -/
theorem register_overwrites_witness :
    mapGet (register [("m", ⟨{"u"}, ∅⟩), ("x", ⟨∅, {"w"}⟩)] [] "m" ⟨"B", none, none, none⟩).1 "m" =
      some emptyRecord ∧
    mapGet (register [("m", ⟨{"u"}, ∅⟩), ("x", ⟨∅, {"w"}⟩)] [] "m" ⟨"B", none, none, none⟩).1 "x" =
      mapGet [("m", ⟨{"u"}, ∅⟩), ("x", ⟨∅, {"w"}⟩)] "x" := by
  refine ⟨?_, ?_⟩
  · exact (register_overwrites [("m", ⟨{"u"}, ∅⟩), ("x", ⟨∅, {"w"}⟩)] []
      "m" ⟨"B", none, none, none⟩).1
  · exact ((register_overwrites [("m", ⟨{"u"}, ∅⟩), ("x", ⟨∅, {"w"}⟩)] []
      "m" ⟨"B", none, none, none⟩).2.2 "x" (by decide)).1

/-- Counterexample to claim C9 as stated: the id `"m"` is already tracked,
yet registering it again neither fails nor preserves the existing entry —
the participation record is silently reset to empty sets. -/
theorem register_duplicate_counterexample :
    mapGet [("m", (⟨{"u"}, ∅⟩ : PRecord))] "m" = some ⟨{"u"}, ∅⟩ ∧
    (register [("m", ⟨{"u"}, ∅⟩)] [] "m" ⟨"B", none, none, none⟩).1 = [("m", emptyRecord)] ∧
    mapGet (register [("m", ⟨{"u"}, ∅⟩)] [] "m" ⟨"B", none, none, none⟩).1 "m" ≠
      some ⟨{"u"}, ∅⟩ := by
  exact ⟨by decide, by decide, by decide⟩

/-- A key that does not occur in an association list looks up to nothing. -/
theorem mapGet_eq_none_of_not_mem {α : Type} (s : List (String × α)) (k : String)
    (h : k ∉ s.map Prod.fst) : mapGet s k = none := by
  induction s with
  | nil => rfl
  | cons e rest ih =>
    simp only [List.map_cons, List.mem_cons, not_or] at h
    obtain ⟨h1, h2⟩ := h
    simp [mapGet, Ne.symm h1, ih h2]

/-- Lookup through a filter whose predicate depends only on the key. -/
theorem mapGet_filter_keydep {α : Type} (p : String × α → Bool) (f : String → Bool)
    (hp : ∀ e : String × α, p e = f e.1) (s : List (String × α)) (k : String) :
    mapGet (s.filter p) k = if f k then mapGet s k else none := by
  induction s with
  | nil => simp [mapGet]
  | cons e rest ih =>
    obtain ⟨e1, e2⟩ := e
    by_cases he : e1 = k
    · subst he
      cases hf : f e1 with
      | false => simp [List.filter_cons, hp, hf, ih, mapGet]
      | true => simp [List.filter_cons, hp, hf, mapGet]
    · cases hf : f e1 with
      | false => simp [List.filter_cons, hp, hf, ih, mapGet, he]
      | true => simp [List.filter_cons, hp, hf, ih, mapGet, he]

/-- Lookup through a filter on an association list with distinct keys: the
entry survives exactly when the predicate holds on it. -/
theorem mapGet_filter_nodup {α : Type} (p : String × α → Bool) (s : List (String × α))
    (k : String) (v : α) (hnd : (s.map Prod.fst).Nodup) (hget : mapGet s k = some v) :
    mapGet (s.filter p) k = if p (k, v) then some v else none := by
  induction s with
  | nil => simp [mapGet] at hget
  | cons e rest ih =>
    obtain ⟨e1, e2⟩ := e
    simp only [List.map_cons, List.nodup_cons] at hnd
    obtain ⟨hne, hnd'⟩ := hnd
    simp only [mapGet] at hget
    by_cases he : e1 = k
    · subst he
      rw [if_pos rfl] at hget
      have hv : e2 = v := Option.some.inj hget
      subst hv
      cases hp : p (e1, e2) with
      | true => simp [List.filter_cons, hp, mapGet]
      | false =>
        have hnk : e1 ∉ (rest.filter p).map Prod.fst := by
          intro hmem
          apply hne
          simp only [List.mem_map] at hmem ⊢
          obtain ⟨x, hx, hxe⟩ := hmem
          exact ⟨x, (List.mem_filter.mp hx).1, hxe⟩
        simp [List.filter_cons, hp, mapGet_eq_none_of_not_mem _ _ hnk]
    · rw [if_neg he] at hget
      cases hp : p (e1, e2) with
      | true => simp [List.filter_cons, hp, mapGet, he, ih hnd' hget]
      | false => simp [List.filter_cons, hp, ih hnd' hget]

/-- Claim C7: the eviction pass of a reconciliation tick removes a tracked
entry from both maps exactly when its computed respawn instant is a valid
timestamp more than 24 hours (86400000 ms) before the evaluation instant;
non-stale entries keep both their snapshot and their participation record. -/
theorem eviction_exactly_stale (parse : String → Option Int) (now : Int)
    (mbd : List (String × Boss)) (pd : List (String × PRecord)) (mid : String) (b : Boss)
    (hnd : (mbd.map Prod.fst).Nodup) (hget : mapGet mbd mid = some b) :
    (isStale parse now b = true →
      mapGet (evictStale parse now mbd pd).1 mid = none ∧
      mapGet (evictStale parse now mbd pd).2 mid = none) ∧
    (isStale parse now b = false →
      mapGet (evictStale parse now mbd pd).1 mid = some b ∧
      mapGet (evictStale parse now mbd pd).2 mid = mapGet pd mid) ∧
    (isStale parse now b = true ↔
      ∃ t, calculateRespawnTime parse now b = some (some t) ∧ t < now - 86400000) := by
  have h1 := mapGet_filter_nodup (fun e => !isStale parse now e.2) mbd mid b hnd hget
  have h2 := mapGet_filter_keydep
    (fun e => match mapGet mbd e.1 with
      | some bb => !isStale parse now bb
      | none => true)
    (fun kk => match mapGet mbd kk with
      | some bb => !isStale parse now bb
      | none => true)
    (fun _ => rfl) pd mid
  refine ⟨?_, ?_, ?_⟩
  · intro hs
    constructor
    · rw [show (evictStale parse now mbd pd).1 = mbd.filter (fun e => !isStale parse now e.2)
        from rfl, h1]
      simp [hs]
    · rw [show (evictStale parse now mbd pd).2 = pd.filter (fun e =>
        match mapGet mbd e.1 with
        | some bb => !isStale parse now bb
        | none => true) from rfl, h2, hget]
      simp [hs]
  · intro hs
    constructor
    · rw [show (evictStale parse now mbd pd).1 = mbd.filter (fun e => !isStale parse now e.2)
        from rfl, h1]
      simp [hs]
    · rw [show (evictStale parse now mbd pd).2 = pd.filter (fun e =>
        match mapGet mbd e.1 with
        | some bb => !isStale parse now bb
        | none => true) from rfl, h2, hget]
      simp [hs]
  · cases hc : calculateRespawnTime parse now b with
    | none => simp [isStale, hc]
    | some o =>
      cases o with
      | none => simp [isStale, hc]
      | some t => simp [isStale, hc]

/-- Witness for claim C7: a concrete snapshot whose computed respawn instant
is timestamp 1000; a tick 25 hours later evicts it from both maps, a tick 23
hours later keeps both entries. -/
theorem eviction_exactly_stale_witness :
    mapGet (evictStale parseT 90001000
      [("m", ⟨"B", some "T", none, none⟩)] [("m", emptyRecord)]).1 "m" = none ∧
    mapGet (evictStale parseT 90001000
      [("m", ⟨"B", some "T", none, none⟩)] [("m", emptyRecord)]).2 "m" = none ∧
    mapGet (evictStale parseT 82801000
      [("m", ⟨"B", some "T", none, none⟩)] [("m", emptyRecord)]).1 "m" =
      some ⟨"B", some "T", none, none⟩ ∧
    mapGet (evictStale parseT 82801000
      [("m", ⟨"B", some "T", none, none⟩)] [("m", emptyRecord)]).2 "m" =
      mapGet [("m", emptyRecord)] "m" := by
  have hstale := (eviction_exactly_stale parseT 90001000
    [("m", ⟨"B", some "T", none, none⟩)] [("m", emptyRecord)] "m" ⟨"B", some "T", none, none⟩
    (by decide) (by decide)).1 (by decide)
  have hfresh := (eviction_exactly_stale parseT 82801000
    [("m", ⟨"B", some "T", none, none⟩)] [("m", emptyRecord)] "m" ⟨"B", some "T", none, none⟩
    (by decide) (by decide)).2.1 (by decide)
  exact ⟨hstale.1, hstale.2, hfresh.1, hfresh.2⟩

/-- A string ending in a character other than the exclamation mark differs
from the availability banner. -/
theorem append_ne_avail (x y : String) (c : Char) (hy : y.data = [c]) (hc : c ≠ '!') :
    x ++ y ≠ "Available Now!" := by
  intro h
  have hd : (x ++ y).data = ("Available Now!" : String).data := congrArg String.data h
  rw [String.data_append, hy] at hd
  have h1 : (x.data ++ [c]).getLast? = some c := by
    rw [List.getLast?_append_cons]
    rfl
  rw [hd] at h1
  have h2 : (("Available Now!" : String).data).getLast? = some '!' := by decide
  rw [h2] at h1
  exact hc (Option.some.inj h1).symm

/-- No positive countdown rendering equals the availability banner. -/
theorem formatCountdownPos_ne_avail (dms : Nat) :
    formatCountdownPos dms ≠ "Available Now!" := by
  unfold formatCountdownPos
  dsimp only
  split_ifs with h1 h2 h3
  · exact append_ne_avail _ _ 'h' rfl (by decide)
  · exact append_ne_avail _ _ 'm' rfl (by decide)
  · exact append_ne_avail _ _ 'm' rfl (by decide)
  · exact append_ne_avail _ _ 's' rfl (by decide)

/-- Once the computed respawn instant is valid and already reached, it stays
the same at every later evaluation instant: the future-preferring branch
cannot re-activate, and the other branches do not depend on the evaluation
instant. -/
theorem calculateRespawnTime_stable (parse : String → Option Int) (now1 now2 t : Int)
    (b : Boss) (hc : calculateRespawnTime parse now1 b = some (some t))
    (ht : t ≤ now1) (h12 : now1 ≤ now2) :
    calculateRespawnTime parse now2 b = some (some t) := by
  unfold calculateRespawnTime at hc ⊢
  by_cases hrt : truthyStr b.respawn_time
  · rw [if_pos hrt] at hc ⊢
    cases hp : parse (b.respawn_time.getD "") with
    | none =>
      rw [hp] at hc
      exact hc
    | some u =>
      rw [hp] at hc
      have hc2 : (if now1 < u then some (some u) else calcFromDeath parse b) =
          some (some t) := hc
      show (if now2 < u then some (some u) else calcFromDeath parse b) = some (some t)
      by_cases hlt : now1 < u
      · rw [if_pos hlt] at hc2
        have hu : u = t := Option.some.inj (Option.some.inj hc2)
        omega
      · rw [if_neg hlt] at hc2
        rw [if_neg (by omega : ¬ now2 < u)]
        exact hc2
  · rw [if_neg hrt] at hc ⊢
    exact hc

/-- Claim C5: `formatRespawnTime` is monotone for a fixed snapshot — once it
reports `"Available Now!"` at some evaluation instant, it reports
`"Available Now!"` at every later evaluation instant. -/
theorem formatRespawnTime_monotone (parse : String → Option Int) (now1 now2 : Int)
    (b : Boss) (h12 : now1 ≤ now2)
    (h : formatRespawnTime parse now1 b = "Available Now!") :
    formatRespawnTime parse now2 b = "Available Now!" := by
  unfold formatRespawnTime at h ⊢
  cases hc : calculateRespawnTime parse now1 b with
  | none =>
    rw [hc] at h
    have h2 : ("Unknown" : String) = "Available Now!" := h
    exact absurd h2 (by decide)
  | some o =>
    cases o with
    | none =>
      rw [hc] at h
      have h2 : ("Unknown" : String) = "Available Now!" := h
      exact absurd h2 (by decide)
    | some t =>
      rw [hc] at h
      have h2 : (if t - now1 ≤ 0 then "Available Now!"
          else formatCountdownPos (t - now1).toNat) = "Available Now!" := h
      by_cases hle : t - now1 ≤ 0
      · rw [calculateRespawnTime_stable parse now1 now2 t b hc (by omega) h12]
        show (if t - now2 ≤ 0 then "Available Now!"
          else formatCountdownPos (t - now2).toNat) = "Available Now!"
        rw [if_pos (by omega : t - now2 ≤ 0)]
      · rw [if_neg hle] at h2
        exact absurd h2 (formatCountdownPos_ne_avail _)

/-- Witness for claim C5: a snapshot with a past respawn timestamp shows
`"Available Now!"` at instant 2000 and still at instant 3000. -/
theorem formatRespawnTime_monotone_witness :
    (2000 : Int) ≤ 3000 ∧
    formatRespawnTime parseT 2000 ⟨"B", some "T", none, none⟩ = "Available Now!" ∧
    formatRespawnTime parseT 3000 ⟨"B", some "T", none, none⟩ = "Available Now!" :=
  ⟨by decide, by decide,
    formatRespawnTime_monotone parseT 2000 3000 ⟨"B", some "T", none, none⟩
      (by decide) (by decide)⟩

/-- Case analysis of the positive countdown rendering: days and hours come
with exactly one fallback unit below them (which may display zero), minutes
and seconds are rendered alone. -/
theorem formatCountdownPos_cases (dms : Nat) :
    (86400000 ≤ dms → formatCountdownPos dms =
      Nat.repr (dms / 86400000) ++ "d " ++ Nat.repr (dms / 3600000 % 24) ++ "h") ∧
    (3600000 ≤ dms → dms < 86400000 → formatCountdownPos dms =
      Nat.repr (dms / 3600000) ++ "h " ++ Nat.repr (dms / 60000 % 60) ++ "m") ∧
    (60000 ≤ dms → dms < 3600000 → formatCountdownPos dms =
      Nat.repr (dms / 60000) ++ "m") ∧
    (dms < 60000 → formatCountdownPos dms = Nat.repr (dms / 1000) ++ "s") := by
  unfold formatCountdownPos
  dsimp only
  refine ⟨?_, ?_, ?_, ?_⟩
  · intro h1
    rw [if_pos (by omega : 0 < dms / 1000 / 60 / 60 / 24)]
    rw [(by omega : dms / 1000 / 60 / 60 / 24 = dms / 86400000)]
    rw [(by omega : dms / 1000 / 60 / 60 % 24 = dms / 3600000 % 24)]
  · intro h1 h2
    rw [if_neg (by omega : ¬ 0 < dms / 1000 / 60 / 60 / 24)]
    rw [if_pos (by omega : 0 < dms / 1000 / 60 / 60)]
    rw [(by omega : dms / 1000 / 60 / 60 = dms / 3600000)]
    rw [(by omega : dms / 1000 / 60 % 60 = dms / 60000 % 60)]
  · intro h1 h2
    rw [if_neg (by omega : ¬ 0 < dms / 1000 / 60 / 60 / 24)]
    rw [if_neg (by omega : ¬ 0 < dms / 1000 / 60 / 60)]
    rw [if_pos (by omega : 0 < dms / 1000 / 60)]
    rw [(by omega : dms / 1000 / 60 = dms / 60000)]
  · intro h1
    rw [if_neg (by omega : ¬ 0 < dms / 1000 / 60 / 60 / 24)]
    rw [if_neg (by omega : ¬ 0 < dms / 1000 / 60 / 60)]
    rw [if_neg (by omega : ¬ 0 < dms / 1000 / 60)]

/-- Claim C6 (amended): `formatRespawnTime` returns `"Unknown"` when the
computed respawn value is null or invalid, `"Available Now!"` when the delta
is non-positive, and for a positive delta renders the largest nonzero unit
followed by exactly one unit immediately below it (possibly displaying
zero) when the largest unit is days or hours, and the largest nonzero unit
alone when it is minutes or seconds (a sub-minute delta renders seconds,
possibly `"0s"`). -/
theorem formatRespawnTime_postcondition (parse : String → Option Int) (now : Int) (b : Boss) :
    (calculateRespawnTime parse now b = none → formatRespawnTime parse now b = "Unknown") ∧
    (calculateRespawnTime parse now b = some none →
      formatRespawnTime parse now b = "Unknown") ∧
    (∀ t, calculateRespawnTime parse now b = some (some t) → t - now ≤ 0 →
      formatRespawnTime parse now b = "Available Now!") ∧
    (∀ t dms, calculateRespawnTime parse now b = some (some t) → 0 < t - now →
      dms = (t - now).toNat →
      ((86400000 ≤ dms → formatRespawnTime parse now b =
        Nat.repr (dms / 86400000) ++ "d " ++ Nat.repr (dms / 3600000 % 24) ++ "h") ∧
      (3600000 ≤ dms → dms < 86400000 → formatRespawnTime parse now b =
        Nat.repr (dms / 3600000) ++ "h " ++ Nat.repr (dms / 60000 % 60) ++ "m") ∧
      (60000 ≤ dms → dms < 3600000 → formatRespawnTime parse now b =
        Nat.repr (dms / 60000) ++ "m") ∧
      (dms < 60000 → formatRespawnTime parse now b = Nat.repr (dms / 1000) ++ "s"))) := by
  refine ⟨?_, ?_, ?_, ?_⟩
  · intro hc
    simp [formatRespawnTime, hc]
  · intro hc
    simp [formatRespawnTime, hc]
  · intro t hc hle
    simp [formatRespawnTime, hc, hle]
  · intro t dms hc hpos hd
    have hfmt : formatRespawnTime parse now b = formatCountdownPos dms := by
      unfold formatRespawnTime
      rw [hc]
      show (if t - now ≤ 0 then "Available Now!"
        else formatCountdownPos (t - now).toNat) = formatCountdownPos dms
      rw [if_neg (by omega), hd]
    rw [hfmt]
    exact formatCountdownPos_cases dms

/-- Witness for claim C6: a snapshot with no timing fields renders
`"Unknown"`, and a delta of 342000 ms renders minutes alone. -/
theorem formatRespawnTime_postcondition_witness :
    formatRespawnTime parseT 0 ⟨"B", none, none, none⟩ = "Unknown" ∧
    formatRespawnTime parseR 0 ⟨"B", some "R", none, none⟩ =
      Nat.repr (342000 / 60000) ++ "m" := by
  constructor
  · exact (formatRespawnTime_postcondition parseT 0 ⟨"B", none, none, none⟩).1 (by decide)
  · exact (((formatRespawnTime_postcondition parseR 0 ⟨"B", some "R", none, none⟩).2.2.2
      342000 342000 (by decide) (by decide) (by decide)).2.2.1 (by decide) (by decide))

/-- Counterexample to claim C6 as stated: at a delta of 342000 ms (5 minutes
and 42 seconds) the code renders `"5m"` alone — the seconds value 42 is
nonzero yet no second unit is rendered, so the output is not the largest two
non-zero units and carries no fallback unit below minutes. -/
theorem formatRespawnTime_two_units_counterexample :
    formatRespawnTime parseR 0 ⟨"B", some "R", none, none⟩ = "5m" ∧
    342000 / 1000 % 60 = 42 ∧
    ("5m" : String) ≠ "5m 42s" := by
  exact ⟨by decide, by decide, by decide⟩

/-- Claim C8: the displayed participation rate is the rounded-to-nearest
integer percentage of participating responses (rounding halves up, as
`Math.round` does for non-negative arguments), and is 0 when there are no
responses. -/
theorem participationRate_round (p n : Nat) :
    (0 < p + n →
      (participationRate p n : ℤ) = round (100 * (p : ℚ) / ((p : ℚ) + (n : ℚ)))) ∧
    (p + n = 0 → participationRate p n = 0) := by
  constructor
  · intro h
    have h0 : ((p : ℚ) + (n : ℚ)) ≠ 0 := by
      have : (0 : ℚ) < (p : ℚ) + (n : ℚ) := by exact_mod_cast h
      linarith
    rw [round_eq]
    have key : 100 * (p : ℚ) / ((p : ℚ) + (n : ℚ)) + 1 / 2 =
        ((200 * p + (p + n) : ℕ) : ℚ) / ((2 * (p + n) : ℕ) : ℚ) := by
      push_cast
      field_simp
      ring
    rw [key, Rat.floor_natCast_div_natCast]
    simp only [participationRate]
    rw [if_pos h]
    exact Int.ofNat_div _ _
  · intro h
    simp [participationRate, h]

/-- Witness for claim C8: the scenario values — two positive responses give
100 percent, one of each gives 50 percent, no responses give 0 — and the
rounding law applied at one of each. -/
theorem participationRate_round_witness :
    participationRate 2 0 = 100 ∧ participationRate 1 1 = 50 ∧
    participationRate 0 0 = 0 ∧
    (participationRate 1 1 : ℤ) =
      round (100 * ((1 : ℕ) : ℚ) / (((1 : ℕ) : ℚ) + ((1 : ℕ) : ℚ))) := by
  refine ⟨by decide, by decide, (participationRate_round 0 0).2 (by decide), ?_⟩
  exact (participationRate_round 1 1).1 (by decide)

end BossBot
